import Mathlib

set_option maxRecDepth 10000

/-!
# Verification of the branded QR generator (`main.py`)

A shallow embedding of the QR-generator's placement engine and orchestrator:

* `makeQr` — the ECC validation of `_make_qr` (note: Python's `ecc not in "lmqh"`
  is a *substring* test) plus a model of the external encoder's documented
  level validation;
* `pasteLogoOnPng` — the raster compositing path `_paste_logo_on_png`;
* `embedLogoInSvg` — the vector path `_embed_logo_in_svg`, including the
  regex-based attribute probing and the text insertion via `str.replace`;
* `generateQr` — the orchestrator `generate_qr`, returning the list of file
  writes it performs together with its outcome.

Python strings are modelled as `List Char`, Python floats as exact fractions
(`PyFloat`, kept unnormalised so that every operation is kernel-computable),
and the external collaborators (segno, PIL, cairosvg, the OS) are modelled
from their documented behaviour where the code under verification depends on
them; each such model carries a doc comment saying what it stands for.
-/

/-! ## Python string helpers -/

/-- Python `str.lower()` restricted to ASCII (file paths and the texts in this
program are ASCII; `Char.toLower` lowers exactly the ASCII uppercase range). -/
def pyLower (s : List Char) : List Char := s.map Char.toLower

/-- Python's `needle in haystack` on strings: contiguous-substring test
(note that this is *not* set membership — `"lm" in "lmqh"` is `True`). -/
def pyInStr (needle hay : List Char) : Bool :=
  hay.tails.any (fun t => needle.isPrefixOf t)

/-- Python `str.endswith`. -/
def pyEndsWith (suffix s : List Char) : Bool := suffix.isSuffixOf s

/-- `os.path.splitext(p)[1]` (posix): the extension starting at the last dot,
provided that dot lies after the last slash and is not one of the leading dots
of the basename; empty otherwise.  Modelled from `posixpath.splitext`. -/
def splitextExt (p : List Char) : List Char :=
  let posDot := p.length - (p.reverse.takeWhile (fun c => !(c == '.'))).length
  let posSlash := p.length - (p.reverse.takeWhile (fun c => !(c == '/'))).length
  if posDot > posSlash &&
      ((p.drop posSlash).take (posDot - 1 - posSlash)).any (fun c => !(c == '.')) then
    p.drop (posDot - 1)
  else []

/-- `os.path.dirname` (posix): everything before the final slash, with
trailing slashes stripped unless the head consists only of slashes.
Modelled from `posixpath.dirname`. -/
def dirname (p : List Char) : List Char :=
  let tailLen := (p.reverse.takeWhile (fun c => !(c == '/'))).length
  let head := p.take (p.length - tailLen)
  if head.isEmpty then head
  else if head.all (fun c => c == '/') then head
  else (head.reverse.dropWhile (fun c => c == '/')).reverse

/-! ## Python exceptions and the filesystem model -/

/-- The Python exceptions this program can raise. -/
inductive PyErr : Type
  | valueError (msg : List Char)
  | runtimeError (msg : List Char)
  | fileNotFoundError (msg : List Char)
  | zeroDivisionError
deriving DecidableEq, Repr

instance exceptDecEq {ε α : Type} [DecidableEq ε] [DecidableEq α] :
    DecidableEq (Except ε α) := fun a b =>
  match a, b with
  | .ok x, .ok y =>
      if h : x = y then isTrue (by rw [h]) else
        isFalse (fun hc => h (Except.ok.inj hc))
  | .error x, .error y =>
      if h : x = y then isTrue (by rw [h]) else
        isFalse (fun hc => h (Except.error.inj hc))
  | .ok _, .error _ => isFalse (fun hc => Except.noConfusion hc)
  | .error _, .ok _ => isFalse (fun hc => Except.noConfusion hc)

/-- Message of the `FileNotFoundError` raised by `os.makedirs('', exist_ok=True)`. -/
def fnfMsg : List Char :=
  ("[Errno 2] No such file or directory: ''").data

/-- Model of `os.makedirs(d, exist_ok=True)`: creating the empty path raises
`FileNotFoundError` (observed CPython behaviour); any other directory is
created (or already exists) and the call succeeds. -/
def makedirs (d : List Char) : Except PyErr Unit :=
  if d = [] then .error (.fileNotFoundError fnfMsg) else .ok ()

/-! ## Python floats as exact fractions

The source manipulates quantities such as `W * logo_frac` as IEEE doubles.
We model them as exact fractions with integer numerator and positive natural
denominator.  Fractions are deliberately *not* normalised: all operations are
plain integer arithmetic, so every computation reduces in the kernel.  The
denominator stays positive under every operation used (division is only
applied to nonzero divisors, mirroring Python's `ZeroDivisionError` guard
sites). -/

structure PyFloat : Type where
  num : Int
  den : Nat
deriving DecidableEq, Repr

/-- Embed a natural number. -/
def PyFloat.ofNat (n : Nat) : PyFloat := ⟨n, 1⟩

/-- Embed an integer. -/
def PyFloat.ofInt (i : Int) : PyFloat := ⟨i, 1⟩

def PyFloat.mul (a b : PyFloat) : PyFloat := ⟨a.num * b.num, a.den * b.den⟩

def PyFloat.add (a b : PyFloat) : PyFloat :=
  ⟨a.num * b.den + b.num * a.den, a.den * b.den⟩

def PyFloat.sub (a b : PyFloat) : PyFloat :=
  ⟨a.num * b.den - b.num * a.den, a.den * b.den⟩

def PyFloat.neg (a : PyFloat) : PyFloat := ⟨-a.num, a.den⟩

/-- Exact division; keeps the denominator a natural number by moving the
divisor's sign into the numerator.  Only ever applied to nonzero divisors. -/
def PyFloat.div (a b : PyFloat) : PyFloat :=
  ⟨(if 0 ≤ b.num then a.num * (b.den : Int) else -(a.num * (b.den : Int))),
    a.den * b.num.natAbs⟩

/-- `True` iff the fraction is negative (denominators are positive). -/
def PyFloat.isNeg (a : PyFloat) : Bool := a.num < 0

/-- `True` iff the fraction is zero (denominators are positive). -/
def PyFloat.isZero (a : PyFloat) : Bool := a.num == 0

/-- Mathematical floor of the fraction (denominators are positive, so this is
`Int.fdiv`). -/
def PyFloat.floorD (a : PyFloat) : Int := Int.fdiv a.num a.den

/-- Python `int(x)` on a float: truncation toward zero. -/
def PyFloat.trunc (a : PyFloat) : Int := Int.tdiv a.num a.den

/-- The rational value a `PyFloat` denotes (used only in validation lemmas). -/
def PyFloat.val (a : PyFloat) : ℚ := (a.num : ℚ) / (a.den : ℚ)

/-! ## Decimal rendering (Python `str` of ints and floats)

`str(int)` is ordinary decimal notation.  `str(float)` is modelled for the
values this program prints: sign, integer part, a dot, then the fractional
digits (one `0` digit when the value is integral, as Python prints `20.0`);
the expansion is cut after 17 fractional digits, which matches Python exactly
on every value with a short terminating expansion — all values exercised by
the claims are of that form. -/

/-- The decimal digit character for `d % 10`. -/
def digitChar (d : Nat) : Char :=
  match d % 10 with
  | 0 => '0' | 1 => '1' | 2 => '2' | 3 => '3' | 4 => '4'
  | 5 => '5' | 6 => '6' | 7 => '7' | 8 => '8' | _ => '9'

/-- Fuelled accumulator loop for decimal notation of naturals. -/
def natStrAux : Nat → Nat → List Char → List Char
  | 0, _, acc => acc
  | _ + 1, 0, acc => acc
  | f + 1, n, acc => natStrAux f (n / 10) (digitChar n :: acc)

/-- Decimal notation of a natural number (Python `str`). -/
def natStr (n : Nat) : List Char :=
  if n = 0 then [('0')] else natStrAux (n + 1) n []

/-- Decimal notation of an integer (Python `str`). -/
def intStr (i : Int) : List Char :=
  if i < 0 then '-' :: natStr i.natAbs else natStr i.natAbs

/-- Fractional digits of a value in `[0, 1)`: repeatedly multiply by ten and
emit the integer part, stopping at remainder zero or after `fuel` digits. -/
def fracDigits : Nat → PyFloat → List Char
  | 0, _ => []
  | f + 1, r =>
      let r10 := r.mul (PyFloat.ofNat 10)
      let d := r10.trunc
      let rest := r10.sub (PyFloat.ofInt d)
      digitChar d.toNat :: (if rest.isZero then [] else fracDigits f rest)

/-- Python `str(float)` (see the section comment for the modelled domain). -/
def pyFloatStr (q : PyFloat) : List Char :=
  let sgn : List Char := if q.isNeg then [('-')] else []
  let a := if q.isNeg then q.neg else q
  let ip := a.trunc
  let fr := a.sub (PyFloat.ofInt ip)
  sgn ++ natStr ip.toNat ++ [('.')] ++
    (if fr.isZero then [('0')] else fracDigits 17 fr)

/-! ## Base64 (model of `base64.b64encode`, standard alphabet with padding) -/

/-- The standard base64 alphabet, as a character for each 6-bit index
(indices ≥ 63 give `'/'`; encoding only produces indices below 64). -/
def b64Char (n : Nat) : Char :=
  if n < 26 then Char.ofNat (65 + n)
  else if n < 52 then Char.ofNat (97 + (n - 26))
  else if n < 62 then Char.ofNat (48 + (n - 52))
  else if n = 62 then '+' else '/'

/-- `base64.b64encode` on a byte list (bytes are `Nat`s below 256). -/
def base64Encode : List Nat → List Char
  | [] => []
  | [a] => [b64Char (a / 4), b64Char (a % 4 * 16), '=', '=']
  | [a, b] => [b64Char (a / 4), b64Char (a % 4 * 16 + b / 16), b64Char (b % 16 * 4), '=']
  | a :: b :: c :: rest =>
      b64Char (a / 4) :: b64Char (a % 4 * 16 + b / 16) ::
      b64Char (b % 16 * 4 + c / 64) :: b64Char (c % 64) :: base64Encode rest

/-! ## Raster imaging model (the external imaging library)

Pixels are RGBA quadruples; an image is a width, a height and a row-major
pixel grid.  Only the behaviours the program under verification relies on are
modelled, each from the library's documented semantics. -/

/-- An RGBA pixel. -/
abbrev RGBA : Type := Nat × Nat × Nat × Nat

structure PilImage : Type where
  width : Nat
  height : Nat
  rows : List (List RGBA)
deriving DecidableEq, Repr

/-- Pixel lookup (out-of-grid coordinates read as transparent black; the
program never reads out of the grid). -/
def pixAt (img : PilImage) (i j : Nat) : RGBA :=
  (img.rows.getD j []).getD i (0, 0, 0, 0)

/-- Build a row-major pixel grid from a pixel function. -/
def mkRows (w h : Nat) (f : Nat → Nat → RGBA) : List (List RGBA) :=
  (List.range h).map (fun j => (List.range w).map (fun i => f i j))

/-- PIL's fixed-point `MULDIV255` rounding macro. -/
def muldiv255 (a b : Nat) : Nat :=
  let t := a * b + 128
  (t / 256 + t) / 256

/-- One band of PIL's masked blend: `in1*(255-m) + in2*m`, each product
rounded by `MULDIV255`. -/
def blendBand (oldv newv m : Nat) : Nat :=
  muldiv255 oldv (255 - m) + muldiv255 newv m

/-- Model of `Image.paste(src, (x, y), src)` with the RGBA source also used
as mask: inside the (clipped) paste box, a pixel is replaced where the source
alpha is 255, kept where it is 0, and alpha-blended otherwise; PIL performs
this *in place* on the image whose method is called, which the caller of this
function accounts for. -/
def pilPaste (base src : PilImage) (x y : Int) : PilImage :=
  { width := base.width, height := base.height,
    rows := mkRows base.width base.height (fun i j =>
      let si : Int := (i : Int) - x
      let sj : Int := (j : Int) - y
      if 0 ≤ si && si < (src.width : Int) && 0 ≤ sj && sj < (src.height : Int) then
        let p := pixAt src si.toNat sj.toNat
        let q := pixAt base i j
        let m := p.2.2.2
        if m == 255 then p
        else if m == 0 then q
        else (blendBand q.1 p.1 m, blendBand q.2.1 p.2.1 m,
              blendBand q.2.2.1 p.2.2.1 m, blendBand q.2.2.2 p.2.2.2 m)
      else pixAt base i j) }

/-- Model of `Image.resize((w, h), LANCZOS)`: a *copy* at the requested
dimensions.  When the size is unchanged the library returns an identical
copy (its documented fast path), which is the only case whose pixel values
any claim depends on; for genuine rescaling the pixel values are represented
by nearest-neighbour sampling, standing in for the external resampling
filter. -/
def pilResize (img : PilImage) (w h : Nat) : PilImage :=
  if w = img.width ∧ h = img.height then img
  else
    { width := w, height := h,
      rows := mkRows w h (fun i j =>
        pixAt img (i * img.width / w) (j * img.height / h)) }

/-- Model of `ImageDraw.rounded_rectangle((0,0,w,h), radius, fill=white)` on
a fresh transparent canvas: opaque white inside the rounded rectangle,
transparent in the clipped corners.  No claim inspects these pixels; the
model records the dimensions and the white/transparent split. -/
def roundedRectWhite (w h radius : Nat) : PilImage :=
  { width := w, height := h,
    rows := mkRows w h (fun i j =>
      let nearX : Nat := if i < radius then radius - i else
        if i + radius + 1 > w then i + radius + 1 - w else 0
      let nearY : Nat := if j < radius then radius - j else
        if j + radius + 1 > h then j + radius + 1 - h else 0
      if nearX > 0 && nearY > 0 && nearX * nearX + nearY * nearY > radius * radius
      then (0, 0, 0, 0) else (255, 255, 255, 255)) }

/-! ## PNG files and the encoder model -/

/-- A PNG file, abstracted to the header facts a byte-level comparison is
decided by (colour type and bit depth live in the IHDR chunk) plus the
decoded RGBA pixel grid.  Two files that differ in any field differ as byte
streams. -/
structure PngFile : Type where
  colorType : Nat
  bitDepth : Nat
  width : Nat
  height : Nat
  rows : List (List RGBA)
deriving DecidableEq, Repr

/-- A written output artifact: PNG bytes or SVG/UTF-8 text. -/
inductive FileData : Type
  | pngFile (f : PngFile)
  | textFile (t : List Char)
deriving DecidableEq, Repr

/-- Model of `Image.open` on PNG bytes: decode to the pixel grid (the grid in
`PngFile` is already stored in decoded RGBA form). -/
def pilOpenPng (f : PngFile) : PilImage :=
  { width := f.width, height := f.height, rows := f.rows }

/-- Model of `.convert("RGBA")`: the identity on our decoded representation
(pixels are already RGBA quadruples). -/
def convertRGBA (img : PilImage) : PilImage := img

/-- Model of `Image.save(path)` for an RGBA image: PIL encodes an RGBA image
as a PNG with colour type 6 and bit depth 8. -/
def pilSavePng (img : PilImage) : PngFile :=
  { colorType := 6, bitDepth := 8, width := img.width, height := img.height,
    rows := img.rows }

/-! ## The environment: external collaborators' outputs

`generate_qr` consumes the QR encoder, the imaging library, and (optionally)
the SVG rasterizer as black boxes.  An `Env` packages the data those
collaborators supply for one generation request: the encoder's direct PNG and
SVG renders for the requested parameters, the decoded logo raster, the
1024×1024 rasterization a vector logo would get from cairosvg, the raw logo
file bytes, and PIL's PNG re-encode of the logo raster. -/

structure Env : Type where
  hasCairosvg : Bool
  qrPng : PngFile
  qrSvg : List Char
  logoImage : PilImage
  logoSvgRaster : PilImage
  logoFileBytes : List Nat
  pilLogoPngBytes : List Nat

/-! ## `_make_qr`: ECC validation -/

/-- Error message of `_make_qr`'s own validation. -/
def eccErrMsg : List Char := ("ecc must be one of l,m,q,h").data

/-- Error message modelling the external encoder's rejection of an invalid
error-correction level. -/
def segnoErrMsg : List Char := ("Illegal error correction level").data

/-- Model of the external encoder's documented level validation:
`segno.make(data, error=ecc)` accepts `l`, `m`, `q`, `h` case-insensitively
and raises `ValueError` otherwise. -/
def segnoAccepts (ecc : List Char) : Bool :=
  pyLower ecc == ("l").data || pyLower ecc == ("m").data ||
  pyLower ecc == ("q").data || pyLower ecc == ("h").data

/-- `_make_qr`'s observable validation: the wrapper's substring test
`ecc not in "lmqh"` (raising its own `ValueError`), then the encoder's
validation. -/
def makeQr (ecc : List Char) : Except PyErr Unit :=
  if pyInStr ecc (("lmqh").data) = false then .error (.valueError eccErrMsg)
  else if segnoAccepts ecc then .ok () else .error (.valueError segnoErrMsg)

/-! ## `_paste_logo_on_png`: the raster compositing path -/

/-- The long `RuntimeError` message raised when an SVG logo is selected for
PNG output without CairoSVG (verbatim from the source). -/
def cairoMsg : List Char :=
  ("SVG logo selected but CairoSVG is not available to rasterize it for PNG export.\nFix options:\n - Install system Cairo (conda-forge: cairo pango gdk-pixbuf libffi), or\n - Use a PNG/JPG logo, or\n - Export the QR as SVG (vector) instead of PNG.").data

def svgExt : List Char := (".svg").data

/-- The logo raster `_paste_logo_on_png` works on: the cairosvg
rasterization for a vector logo, the decoded file for a raster logo. -/
def loadedLogo (env : Env) (logoPath : List Char) : PilImage :=
  if splitextExt (pyLower logoPath) = svgExt then env.logoSvgRaster
  else env.logoImage

/-- The observable outcome of one `_paste_logo_on_png` call: the returned
composite, the final state of the *caller's* image object (PIL `paste`
mutates in place and line 76 returns that same object, so the two coincide),
the resize target dimensions, the final (possibly padded) logo dimensions,
and the centred paste coordinate. -/
structure PasteResult : Type where
  composite : PilImage
  imgFinal : PilImage
  resizeW : Nat
  resizeH : Nat
  finalW : Nat
  finalH : Nat
  pasteX : Int
  pasteY : Int
deriving DecidableEq, Repr

/-- The happy-path computation of `_paste_logo_on_png` (lines 55–76): resize
target `max(1, int(W*frac))` × aspect-preserving height, optional white pad
of margin `pad_margin_px`, then the centred in-place paste. -/
def pasteResultOf (env : Env) (img : PilImage) (logoPath : List Char)
    (frac : PyFloat) (pad : Bool) (padRadius padMarginPx : Nat) : PasteResult :=
  let W := img.width
  let H := img.height
  let logo0 := loadedLogo env logoPath
  let targetW : Int := max 1 ((PyFloat.ofNat W |>.mul frac).trunc)
  let tw := targetW.toNat
  let scaleFactor := PyFloat.div (PyFloat.ofInt targetW) (PyFloat.ofNat logo0.width)
  let targetH : Int := max 1 ((PyFloat.ofNat logo0.height |>.mul scaleFactor).trunc)
  let th := targetH.toNat
  let logo1 := pilResize logo0 tw th
  let padW := tw + padMarginPx * 2
  let padH := th + padMarginPx * 2
  let padBase := roundedRectWhite padW padH padRadius
  let padded := pilPaste padBase logo1
    (Int.fdiv ((padW : Int) - (tw : Int)) 2) (Int.fdiv ((padH : Int) - (th : Int)) 2)
  let logoF := if pad then padded else logo1
  let fw := if pad then padW else tw
  let fh := if pad then padH else th
  let x := Int.fdiv ((W : Int) - (fw : Int)) 2
  let y := Int.fdiv ((H : Int) - (fh : Int)) 2
  let comp := pilPaste img logoF x y
  { composite := comp, imgFinal := comp, resizeW := tw, resizeH := th,
    finalW := fw, finalH := fh, pasteX := x, pasteY := y }

/-- `_paste_logo_on_png` (lines 28–76).  The two failure sites are the
missing-rasterizer guard for `.svg` logos (lines 41–49) and Python's
`ZeroDivisionError` at `target_w / logo.width` for a zero-width logo
(line 57); otherwise the call succeeds with the `pasteResultOf` outcome. -/
def pasteLogoOnPng (env : Env) (img : PilImage) (logoPath : List Char)
    (frac : PyFloat) (pad : Bool) (padRadius padMarginPx : Nat) :
    Except PyErr PasteResult :=
  if splitextExt (pyLower logoPath) = svgExt ∧ env.hasCairosvg = false then
    .error (.runtimeError cairoMsg)
  else if (loadedLogo env logoPath).width = 0 then
    .error .zeroDivisionError
  else .ok (pasteResultOf env img logoPath frac pad padRadius padMarginPx)

/-! ## `_embed_logo_in_svg`: the vector path

The source probes the QR SVG text with three regexes and then performs a pure
text insertion with `str.replace`.  The two attribute regexes
(`width="([\d\.]+)(\w*)"`, `height="..."`) are only tested for a match; the
`viewBox="([\d\.\s\-]+)"` regex also yields its group.  The character classes
exclude `"`; backtracking therefore only ever shortens the first (digits/dot)
group, which the models below reproduce. -/

def isDigitDotB (c : Char) : Bool := c.isDigit || c == '.'

/-- `\s` (ASCII whitespace, as produced by SVG serializers). -/
def isWsB (c : Char) : Bool :=
  c == ' ' || c == '\t' || c == '\n' || c == '\r' ||
  c.toNat == 11 || c.toNat == 12

/-- `\w` restricted to ASCII (the unit suffixes this regex can capture —
`px`, `mm`, … — are ASCII). -/
def isWordB (c : Char) : Bool := c.isAlphanum || c == '_'

/-- `[\d\.\s\-]`, the `viewBox` value class. -/
def isVbB (c : Char) : Bool :=
  c.isDigit || c == '.' || c == '-' || isWsB c

/-- Length of the maximal run of `p`-characters at the head of `s`. -/
def maxRunLen (p : Char → Bool) (s : List Char) : Nat := (s.takeWhile p).length

/-- Does `([\d\.]+)(\w*)"` match at the head of `s`?  Greedy first group with
backtracking (the second group never backtracks usefully because `"` is not a
word character). -/
def attrTailMatch (s : List Char) : Bool :=
  let r1 := maxRunLen isDigitDotB s
  if r1 == 0 then false
  else
    (List.range r1).any (fun k =>
      let rest := s.drop (r1 - k)
      let rest2 := rest.drop (maxRunLen isWordB rest)
      rest2.headD ' ' == '"')

/-- `re.search` of `lit` + `([\d\.]+)(\w*)"` in `s`, as a match test. -/
def reSearchAttrB (lit s : List Char) : Bool :=
  s.tails.any (fun t => lit.isPrefixOf t && attrTailMatch (t.drop lit.length))

def widthLit : List Char := ("width=\"").data

def heightLit : List Char := ("height=\"").data

def vbLit : List Char := ("viewBox=\"").data

/-- `re.search(r'viewBox="([\d\.\s\-]+)"', s)`, returning the group of the
leftmost match (the value class excludes `"`, so a position matches exactly
when the maximal class run there is nonempty and followed by `"`). -/
def reSearchVb : List Char → Option (List Char)
  | [] => none
  | c :: rest =>
      if vbLit.isPrefixOf (c :: rest) then
        let after := (c :: rest).drop vbLit.length
        let r := maxRunLen isVbB after
        if r ≠ 0 ∧ (after.drop r).headD ' ' == '"' then some (after.take r)
        else reSearchVb rest
      else reSearchVb rest

/-- Numeric value of a digit string (helper for `parseFloat`). -/
def digitsVal (ds : List Char) : Nat :=
  ds.foldl (fun acc c => acc * 10 + (c.toNat - 48)) 0

/-- Python `float(token)` on the tokens the `viewBox` class can produce:
an optional leading minus, then digits with at most one dot and at least one
digit (`"1."`, `".5"` are valid; `""`, `"."`, `"1-2"` raise `ValueError`,
modelled as `none`). -/
def parseFloatUnsigned (t : List Char) : Option PyFloat :=
  let ip := t.takeWhile (fun c => c.isDigit)
  match t.drop ip.length with
  | [] => if ip.isEmpty then none else some (PyFloat.ofNat (digitsVal ip))
  | '.' :: fp =>
      if fp.all (fun c => c.isDigit) && !(ip.isEmpty && fp.isEmpty) then
        some ⟨digitsVal ip * 10 ^ fp.length + digitsVal fp, 10 ^ fp.length⟩
      else none
  | _ => none

def parseFloat (t : List Char) : Option PyFloat :=
  match t with
  | '-' :: rest => (parseFloatUnsigned rest).map PyFloat.neg
  | _ => parseFloatUnsigned t

/-- Python `str.split()` (no argument): split on whitespace runs, dropping
empty tokens. -/
def splitWsGo : List Char → List Char → List (List Char)
  | acc, [] => if acc.isEmpty then [] else [acc.reverse]
  | acc, c :: rest =>
      if isWsB c then
        if acc.isEmpty then splitWsGo [] rest
        else acc.reverse :: splitWsGo [] rest
      else splitWsGo (c :: acc) rest

def pySplitWs (s : List Char) : List (List Char) := splitWsGo [] s

/-- `vb_x, vb_y, vb_w, vb_h = [float(x) for x in group.split()]` — `none`
models the `ValueError` Python raises on a bad float or a wrong count. -/
def parseVbFloats (g : List Char) : Option (PyFloat × PyFloat × PyFloat × PyFloat) :=
  match (pySplitWs g).map parseFloat with
  | [some a, some b, some c, some d] => some (a, b, c, d)
  | _ => none

/-- Message standing for the `ValueError` raised while converting/unpacking
the `viewBox` numbers. -/
def vbFloatErrMsg : List Char := ("could not convert viewBox values").data

def svgCloseTag : List Char := ("</svg>").data

/-- The `<image>` element of the attribute-parsed branch (line 115):
`f'<image x="{x}" y="{y}" width="{logo_w}" height="{logo_h}"
href="data:{mime};base64,{b64}" />'`. -/
def injMain (mime b64 : List Char) (x y w h : PyFloat) : List Char :=
  ("<image x=\"").data ++ pyFloatStr x ++ ("\" y=\"").data ++ pyFloatStr y ++
  ("\" width=\"").data ++ pyFloatStr w ++ ("\" height=\"").data ++ pyFloatStr h ++
  ("\" href=\"data:").data ++ mime ++ (";base64,").data ++ b64 ++ ("\" />").data

/-- The `<image>` element of the percentage fallback branch (lines 101–105):
integer percentage `int(logo_frac*100)` and a float-formatted half-percentage
inside the `translate`. -/
def injFallback (mime b64 : List Char) (frac : PyFloat) : List Char :=
  let widthPct : Int := (frac.mul (PyFloat.ofNat 100)).trunc
  let halfPct : PyFloat := PyFloat.div (PyFloat.ofInt widthPct) (PyFloat.ofNat 2)
  ("<image x=\"50%\" y=\"50%\" width=\"").data ++ intStr widthPct ++
  ("%\" height=\"").data ++ intStr widthPct ++
  ("%\" href=\"data:").data ++ mime ++ (";base64,").data ++ b64 ++
  ("\" transform=\"translate(-").data ++ pyFloatStr halfPct ++
  ("%, -").data ++ pyFloatStr halfPct ++ ("%)\" />").data

/-! ### Python `str.replace`

Non-overlapping, left-to-right replacement of *every* occurrence.  The fuel
argument bounds the length of the remaining text (each step consumes at least
one character and exactly one unit of fuel, so structural recursion on the
fuel suffices and the function is kernel-computable); `replaceAll`
instantiates the fuel with the text length.  Modelled for nonempty patterns —
the only pattern used is `"</svg>"`.  On a match, skipping the matched
occurrence drops the `pat.length - 1` characters of `rest` that belong to it
(the head `c` being the first). -/

def replaceFuel (pat rep : List Char) : Nat → List Char → List Char
  | _, [] => []
  | 0, s => s
  | f + 1, c :: rest =>
      if 0 < pat.length ∧ pat.isPrefixOf (c :: rest) then
        rep ++ replaceFuel pat rep f (rest.drop (pat.length - 1))
      else c :: replaceFuel pat rep f rest

def replaceAll (pat rep s : List Char) : List Char := replaceFuel pat rep s.length s

/-- The matching occurrence count (same traversal as `replaceFuel`). -/
def countFuel (pat : List Char) : Nat → List Char → Nat
  | _, [] => 0
  | 0, _ => 0
  | f + 1, c :: rest =>
      if 0 < pat.length ∧ pat.isPrefixOf (c :: rest) then
        1 + countFuel pat f (rest.drop (pat.length - 1))
      else countFuel pat f rest

/-- Number of (non-overlapping, left-to-right) occurrences of `pat` in `s`. -/
def countSub (pat s : List Char) : Nat := countFuel pat s.length s

def svgMime : List Char := ("image/svg+xml").data

def pngMime : List Char := ("image/png").data

/-- `_embed_logo_in_svg` (lines 79–116).  The logo payload: a vector logo is
embedded as its raw file bytes, a raster logo as PIL's PNG re-encode of its
decoded image (both base64).  Placement: the attribute-parsed branch when all
three regexes match and the `viewBox` numbers convert (a failed conversion is
Python's `ValueError`), the percentage fallback otherwise.  Both branches end
with `svg.replace("</svg>", inject + "</svg>")`. -/
def embedLogoInSvg (env : Env) (svgQr logoPath : List Char) (frac : PyFloat) :
    Except PyErr (List Char) :=
  let ext := splitextExt (pyLower logoPath)
  let mime := if ext = svgExt then svgMime else pngMime
  let b64 := base64Encode (if ext = svgExt then env.logoFileBytes else env.pilLogoPngBytes)
  let wB := reSearchAttrB widthLit svgQr
  let hB := reSearchAttrB heightLit svgQr
  match reSearchVb svgQr with
  | some g =>
      if wB && hB then
        match parseVbFloats g with
        | none => .error (.valueError vbFloatErrMsg)
        | some (vbx, vby, vbw, vbh) =>
            let logoW := vbw.mul frac
            let logoH := vbh.mul frac
            let cx := vbx.add (vbw.div (PyFloat.ofNat 2))
            let cy := vby.add (vbh.div (PyFloat.ofNat 2))
            let x := cx.sub (logoW.div (PyFloat.ofNat 2))
            let y := cy.sub (logoH.div (PyFloat.ofNat 2))
            .ok (replaceAll svgCloseTag (injMain mime b64 x y logoW logoH ++ svgCloseTag) svgQr)
      else .ok (replaceAll svgCloseTag (injFallback mime b64 frac ++ svgCloseTag) svgQr)
  | none => .ok (replaceAll svgCloseTag (injFallback mime b64 frac ++ svgCloseTag) svgQr)

/-! ## `generate_qr`: the orchestrator -/

/-- Message of the unsupported-extension `ValueError` (line 163). -/
def extErrMsg : List Char := ("out_path must end with .png or .svg").data

def pngExtOut : List Char := (".png").data

def svgExtOut : List Char := (".svg").data

/-- `generate_qr` (lines 119–163): ECC validation and QR construction first,
then `os.makedirs(os.path.dirname(out_path), exist_ok=True)`, then dispatch
on the lower-cased output extension.  The first component of the result lists
the file writes performed (path and content); the second is the returned
path or the raised exception.  Rendering to in-memory buffers is not a file
write; the only writes are the final `img.save(out_path)` and the SVG text
write. -/
def generateQr (env : Env) (out ecc : List Char)
    (logoPath : Option (List Char)) (frac : PyFloat) (padLogo : Bool)
    (padRadius padMarginPx : Nat) :
    List (List Char × FileData) × Except PyErr (List Char) :=
  match makeQr ecc with
  | .error e => ([], .error e)
  | .ok _ =>
      let outLower := pyLower out
      match makedirs (dirname out) with
      | .error e => ([], .error e)
      | .ok _ =>
          if pyEndsWith pngExtOut outLower then
            let img := convertRGBA (pilOpenPng env.qrPng)
            match logoPath with
            | some p =>
                match pasteLogoOnPng env img p frac padLogo padRadius padMarginPx with
                | .error e => ([], .error e)
                | .ok r => ([(out, .pngFile (pilSavePng r.composite))], .ok out)
            | none => ([(out, .pngFile (pilSavePng img))], .ok out)
          else if pyEndsWith svgExtOut outLower then
            match logoPath with
            | some p =>
                match embedLogoInSvg env env.qrSvg p frac with
                | .error e => ([], .error e)
                | .ok txt => ([(out, .textFile txt)], .ok out)
            | none => ([(out, .textFile env.qrSvg)], .ok out)
          else ([], .error (.valueError extErrMsg))

/-! ## Concrete fixtures used by witnesses and counterexamples -/

def whitePx : RGBA := (255, 255, 255, 255)

def blackPx : RGBA := (0, 0, 0, 255)

/-- A 2×2 all-white raster, standing for a decoded QR render. -/
def qrImg2 : PilImage := ⟨2, 2, [[whitePx, whitePx], [whitePx, whitePx]]⟩

/-- A 1×1 opaque black logo raster. -/
def logoImg1 : PilImage := ⟨1, 1, [[blackPx]]⟩

/-- A small fully concrete environment: encoder renders (PNG with segno's
1-bit greyscale header, colour type 0; a minimal SVG), a 1×1 logo, concrete
logo bytes. -/
def envQr : Env :=
  { hasCairosvg := true,
    qrPng := ⟨0, 1, 2, 2, qrImg2.rows⟩,
    qrSvg := ("<svg></svg>").data,
    logoImage := logoImg1,
    logoSvgRaster := logoImg1,
    logoFileBytes := [60, 63],
    pilLogoPngBytes := [1, 2, 3] }

/-- `envQr` without the optional vector rasterizer. -/
def envNoCairo : Env := { envQr with hasCairosvg := false }

/-- The environment of the C8 scenario: the encoder's SVG render carries
`width`, `height` and `viewBox="0 0 100 100"`. -/
def envVb : Env :=
  { envQr with qrSvg :=
      ("<svg width=\"100\" height=\"100\" viewBox=\"0 0 100 100\"><path d=\"M1 1h8z\"/></svg>").data }

/-- A 1×1 all-white raster (minimal QR width for the C1 counterexample). -/
def qrImg1 : PilImage := ⟨1, 1, [[whitePx]]⟩

/-! ## Helper lemmas: `str.replace` on a unique occurrence -/

theorem countFuel_nil (pat : List Char) (f : Nat) : countFuel pat f [] = 0 := by
  cases f <;> rfl

theorem replaceFuel_nil (pat rep : List Char) (f : Nat) :
    replaceFuel pat rep f [] = [] := by
  cases f <;> rfl

theorem countFuel_irrel (pat : List Char) :
    ∀ (f : Nat), ∀ (g : Nat) (s : List Char), s.length ≤ f → s.length ≤ g →
      countFuel pat f s = countFuel pat g s := by
  intro f
  induction f with
  | zero =>
      intro g s hf _
      have hs : s = [] := List.eq_nil_of_length_eq_zero (Nat.le_zero.mp hf)
      subst hs
      simp [countFuel_nil]
  | succ f ih =>
      intro g s hf hg
      cases s with
      | nil => simp [countFuel_nil]
      | cons c rest =>
          cases g with
          | zero => simp at hg
          | succ g' =>
              simp only [countFuel]
              split
              · have hlen : (rest.drop (pat.length - 1)).length ≤ rest.length := by
                  simp [List.length_drop]
                have h1 : (rest.drop (pat.length - 1)).length ≤ f := by
                  have := List.length_cons c rest ▸ hf
                  omega
                have h2 : (rest.drop (pat.length - 1)).length ≤ g' := by
                  have := List.length_cons c rest ▸ hg
                  omega
                rw [ih g' _ h1 h2]
              · have h1 : rest.length ≤ f := by
                  have := List.length_cons c rest ▸ hf
                  omega
                have h2 : rest.length ≤ g' := by
                  have := List.length_cons c rest ▸ hg
                  omega
                exact ih g' rest h1 h2

theorem countFuel_eq_countSub (pat : List Char) (f : Nat) (s : List Char)
    (hf : s.length ≤ f) : countFuel pat f s = countSub pat s :=
  countFuel_irrel pat f s.length s hf (Nat.le_refl _)

theorem countFuel_zero_replace (pat rep : List Char) :
    ∀ (f : Nat) (s : List Char), s.length ≤ f → countFuel pat f s = 0 →
      replaceFuel pat rep f s = s := by
  intro f
  induction f with
  | zero =>
      intro s hf _
      have hs : s = [] := List.eq_nil_of_length_eq_zero (Nat.le_zero.mp hf)
      subst hs
      exact replaceFuel_nil pat rep 0
  | succ f ih =>
      intro s hf hc
      cases s with
      | nil => exact replaceFuel_nil pat rep _
      | cons c rest =>
          simp only [countFuel] at hc
          simp only [replaceFuel]
          split
          · rename_i hm
            rw [if_pos hm] at hc
            omega
          · rename_i hm
            rw [if_neg hm] at hc
            have h1 : rest.length ≤ f := by
              have := List.length_cons c rest ▸ hf
              omega
            rw [ih rest h1 hc]

theorem countFuel_one_split (pat rep : List Char) (hp : 0 < pat.length) :
    ∀ (f : Nat) (s : List Char), s.length ≤ f → countFuel pat f s = 1 →
      ∃ pre suf, s = pre ++ pat ++ suf ∧ countSub pat pre = 0 ∧
        countSub pat suf = 0 ∧ replaceFuel pat rep f s = pre ++ rep ++ suf := by
  intro f
  induction f with
  | zero =>
      intro s hf hc
      have hs : s = [] := List.eq_nil_of_length_eq_zero (Nat.le_zero.mp hf)
      subst hs
      rw [countFuel_nil] at hc
      omega
  | succ f ih =>
      intro s hf hc
      cases s with
      | nil => rw [countFuel_nil] at hc; omega
      | cons c rest =>
          have hflen : rest.length ≤ f := by
            have := List.length_cons c rest ▸ hf
            omega
          by_cases hm : 0 < pat.length ∧ pat.isPrefixOf (c :: rest)
          · -- the unique occurrence is at the head
            obtain ⟨k, hk⟩ : ∃ k, pat.length = k + 1 :=
              ⟨pat.length - 1, by omega⟩
            obtain ⟨t, ht⟩ : pat <+: (c :: rest) :=
              List.isPrefixOf_iff_prefix.mp hm.2
            have hdrop : rest.drop (pat.length - 1) = t := by
              have h1 : (pat ++ t).drop pat.length = t := List.drop_left pat t
              rw [ht] at h1
              rw [hk] at h1 ⊢
              simpa [List.drop_succ_cons] using h1
            simp only [countFuel, if_pos hm] at hc
            have hzero : countFuel pat f (rest.drop (pat.length - 1)) = 0 := by omega
            have htlen : t.length ≤ f := by
              rw [← hdrop]
              have : (rest.drop (pat.length - 1)).length ≤ rest.length := by
                simp [List.length_drop]
              omega
            refine ⟨[], t, by simp [← ht], ?_, ?_, ?_⟩
            · simp [countSub, countFuel_nil]
            · rw [← countFuel_eq_countSub pat f t htlen, ← hdrop]
              exact hzero
            · simp only [replaceFuel, if_pos hm]
              rw [hdrop] at hzero ⊢
              rw [countFuel_zero_replace pat rep f t htlen hzero]
              simp
          · -- the unique occurrence lies in `rest`
            simp only [countFuel, if_neg hm] at hc
            obtain ⟨pre', suf', hsplit, hpre, hsuf, hrepl⟩ := ih rest hflen hc
            refine ⟨c :: pre', suf', by simp [hsplit], ?_, hsuf, ?_⟩
            · -- no occurrence in `c :: pre'`
              have hnp : ¬ pat.isPrefixOf (c :: pre') = true := by
                intro hcp
                apply hm
                refine ⟨hp, ?_⟩
                have h1 : pat <+: (c :: pre') := List.isPrefixOf_iff_prefix.mp hcp
                have h2 : (c :: pre') <+: (c :: rest) := by
                  refine ⟨pat ++ suf', ?_⟩
                  simp [hsplit]
                exact List.isPrefixOf_iff_prefix.mpr (h1.trans h2)
              have : countSub pat (c :: pre') = countFuel pat pre'.length pre' := by
                simp only [countSub, List.length_cons, countFuel]
                rw [if_neg (fun hand => hnp hand.2)]
              rw [this, countFuel_eq_countSub pat pre'.length pre' (Nat.le_refl _)]
              exact hpre
            · simp only [replaceFuel, if_neg hm]
              rw [hrepl]
              simp

/-- `str.replace(pat, rep)` on a text with exactly one occurrence of the
(nonempty) pattern: the text splits as `pre ++ pat ++ suf` with no occurrence
in `pre` or `suf`, and the result is `pre ++ rep ++ suf`. -/
theorem replaceAll_single (pat rep s : List Char) (hp : 0 < pat.length)
    (h1 : countSub pat s = 1) :
    ∃ pre suf, s = pre ++ pat ++ suf ∧ countSub pat pre = 0 ∧
      countSub pat suf = 0 ∧ replaceAll pat rep s = pre ++ rep ++ suf :=
  countFuel_one_split pat rep hp s.length s (Nat.le_refl _) h1

/-! ## Helper lemmas: the injected element contains exactly one `<` -/

theorem digitChar_ne_lt (d : Nat) : digitChar d ≠ '<' := by
  unfold digitChar
  have hd : d % 10 < 10 := Nat.mod_lt _ (by omega)
  generalize d % 10 = k at hd ⊢
  interval_cases k <;> decide

theorem natStrAux_not_mem (f : Nat) :
    ∀ (n : Nat) (acc : List Char), ('<') ∉ acc → ('<') ∉ natStrAux f n acc := by
  induction f with
  | zero => intro n acc hacc; exact hacc
  | succ f ih =>
      intro n acc hacc
      cases n with
      | zero => exact hacc
      | succ m =>
          show ('<') ∉ natStrAux f ((m + 1) / 10) (digitChar (m + 1) :: acc)
          apply ih
          intro hmem
          rcases List.mem_cons.mp hmem with h | h
          · exact digitChar_ne_lt (m + 1) h.symm
          · exact hacc h

theorem natStr_not_mem (n : Nat) : ('<') ∉ natStr n := by
  unfold natStr
  split
  · decide
  · exact natStrAux_not_mem (n + 1) n [] (by decide)

theorem intStr_not_mem (i : Int) : ('<') ∉ intStr i := by
  unfold intStr
  split
  · intro hmem
    rcases List.mem_cons.mp hmem with h | h
    · exact absurd h (by decide)
    · exact natStr_not_mem _ h
  · exact natStr_not_mem _

theorem fracDigits_not_mem (f : Nat) : ∀ (r : PyFloat), ('<') ∉ fracDigits f r := by
  induction f with
  | zero => intro r; simp [fracDigits]
  | succ f ih =>
      intro r
      simp only [fracDigits]
      intro hmem
      rcases List.mem_cons.mp hmem with h | h
      · exact digitChar_ne_lt _ h.symm
      · rcases h' : (((r.mul (PyFloat.ofNat 10)).sub
            (PyFloat.ofInt (r.mul (PyFloat.ofNat 10)).trunc)).isZero) with _ | _
        · rw [h'] at h
          simp at h
          exact ih _ h
        · rw [h'] at h
          simp at h

theorem pyFloatStr_not_mem (q : PyFloat) : ('<') ∉ pyFloatStr q := by
  unfold pyFloatStr
  intro hmem
  rcases List.mem_append.mp hmem with hmem2 | h
  · rcases List.mem_append.mp hmem2 with hmem3 | h
    · rcases List.mem_append.mp hmem3 with h | h
      · split at h
        · exact absurd h (by decide)
        · exact absurd h (by decide)
      · exact natStr_not_mem _ h
    · exact absurd h (by decide)
  · split at h
    · split at h
      · exact absurd h (by decide)
      · exact fracDigits_not_mem 17 _ h
    · split at h
      · exact absurd h (by decide)
      · exact fracDigits_not_mem 17 _ h

theorem b64Char_ne_lt (n : Nat) : b64Char n ≠ '<' := by
  unfold b64Char
  by_cases h1 : n < 26
  · rw [if_pos h1]
    interval_cases n <;> decide
  · rw [if_neg h1]
    by_cases h2 : n < 52
    · rw [if_pos h2]
      have hb : n - 26 < 26 := by omega
      generalize n - 26 = m at hb ⊢
      interval_cases m <;> decide
    · rw [if_neg h2]
      by_cases h3 : n < 62
      · rw [if_pos h3]
        have hb : n - 52 < 10 := by omega
        generalize n - 52 = m at hb ⊢
        interval_cases m <;> decide
      · rw [if_neg h3]
        by_cases h4 : n = 62
        · rw [if_pos h4]; decide
        · rw [if_neg h4]; decide

theorem base64Encode_not_mem_aux :
    ∀ (n : Nat) (l : List Nat), l.length ≤ n → ('<') ∉ base64Encode l := by
  intro n
  induction n with
  | zero =>
      intro l hl
      have : l = [] := List.eq_nil_of_length_eq_zero (Nat.le_zero.mp hl)
      subst this
      simp [base64Encode]
  | succ n ih =>
      intro l hl
      match l with
      | [] => simp [base64Encode]
      | [a] =>
          simp only [base64Encode]
          intro hmem
          rcases List.mem_cons.mp hmem with h | hmem
          · exact b64Char_ne_lt _ h.symm
          · rcases List.mem_cons.mp hmem with h | hmem
            · exact b64Char_ne_lt _ h.symm
            · exact absurd hmem (by decide)
      | [a, b] =>
          simp only [base64Encode]
          intro hmem
          rcases List.mem_cons.mp hmem with h | hmem
          · exact b64Char_ne_lt _ h.symm
          · rcases List.mem_cons.mp hmem with h | hmem
            · exact b64Char_ne_lt _ h.symm
            · rcases List.mem_cons.mp hmem with h | hmem
              · exact b64Char_ne_lt _ h.symm
              · exact absurd hmem (by decide)
      | a :: b :: c :: rest =>
          simp only [base64Encode]
          intro hmem
          rcases List.mem_cons.mp hmem with h | hmem
          · exact b64Char_ne_lt _ h.symm
          · rcases List.mem_cons.mp hmem with h | hmem
            · exact b64Char_ne_lt _ h.symm
            · rcases List.mem_cons.mp hmem with h | hmem
              · exact b64Char_ne_lt _ h.symm
              · rcases List.mem_cons.mp hmem with h | hmem
                · exact b64Char_ne_lt _ h.symm
                · have hr : rest.length ≤ n := by
                    simp only [List.length_cons] at hl
                    omega
                  exact ih rest hr hmem

theorem base64Encode_not_mem (l : List Nat) : ('<') ∉ base64Encode l :=
  base64Encode_not_mem_aux l.length l (Nat.le_refl _)

theorem injMain_count (mime b64 : List Char) (x y w h : PyFloat)
    (hm : ('<') ∉ mime) (hb : ('<') ∉ b64) :
    (injMain mime b64 x y w h).count ('<') = 1 := by
  unfold injMain
  simp only [List.count_append]
  rw [List.count_eq_zero.mpr hm, List.count_eq_zero.mpr hb,
    List.count_eq_zero.mpr (pyFloatStr_not_mem x),
    List.count_eq_zero.mpr (pyFloatStr_not_mem y),
    List.count_eq_zero.mpr (pyFloatStr_not_mem w),
    List.count_eq_zero.mpr (pyFloatStr_not_mem h)]
  decide

theorem injFallback_count (mime b64 : List Char) (frac : PyFloat)
    (hm : ('<') ∉ mime) (hb : ('<') ∉ b64) :
    (injFallback mime b64 frac).count ('<') = 1 := by
  unfold injFallback
  simp only [List.count_append]
  rw [List.count_eq_zero.mpr hm, List.count_eq_zero.mpr hb,
    List.count_eq_zero.mpr (intStr_not_mem _),
    List.count_eq_zero.mpr (pyFloatStr_not_mem _)]
  decide

theorem injMain_prefix (mime b64 : List Char) (x y w h : PyFloat) :
    (("<image x=").data).isPrefixOf (injMain mime b64 x y w h) = true := by
  apply List.isPrefixOf_iff_prefix.mpr
  unfold injMain
  simp only [List.append_assoc]
  exact (List.isPrefixOf_iff_prefix.mp (by decide)).trans (List.prefix_append _ _)

theorem injFallback_prefix (mime b64 : List Char) (frac : PyFloat) :
    (("<image x=").data).isPrefixOf (injFallback mime b64 frac) = true := by
  apply List.isPrefixOf_iff_prefix.mpr
  unfold injFallback
  simp only [List.append_assoc]
  exact (List.isPrefixOf_iff_prefix.mp (by decide)).trans (List.prefix_append _ _)

/-- Every successful `embedLogoInSvg` result is `svg.replace("</svg>", inject
+ "</svg>")` for an inject string that starts with `<image x=` and contains
exactly one `<`. -/
theorem embedLogoInSvg_ok_shape (env : Env) (svg p : List Char) (frac : PyFloat)
    (out : List Char) (h : embedLogoInSvg env svg p frac = .ok out) :
    ∃ inj, out = replaceAll svgCloseTag (inj ++ svgCloseTag) svg ∧
      (("<image x=").data).isPrefixOf inj = true ∧ inj.count ('<') = 1 := by
  have hmime : ('<') ∉ (if splitextExt (pyLower p) = svgExt then svgMime else pngMime) := by
    split <;> decide
  have hb64 : ('<') ∉ base64Encode
      (if splitextExt (pyLower p) = svgExt then env.logoFileBytes else env.pilLogoPngBytes) :=
    base64Encode_not_mem _
  simp only [embedLogoInSvg] at h
  split at h
  · split at h
    · split at h
      · exact absurd h (by simp)
      · exact ⟨_, (Except.ok.inj h).symm, injMain_prefix _ _ _ _ _ _,
          injMain_count _ _ _ _ _ _ hmime hb64⟩
    · exact ⟨_, (Except.ok.inj h).symm, injFallback_prefix _ _ _,
        injFallback_count _ _ _ hmime hb64⟩
  · exact ⟨_, (Except.ok.inj h).symm, injFallback_prefix _ _ _,
      injFallback_count _ _ _ hmime hb64⟩

/-! ## Helper lemmas: the raster path -/

theorem pasteLogoOnPng_ok (env : Env) (img : PilImage) (p : List Char)
    (frac : PyFloat) (pad : Bool) (pr pm : Nat) (r : PasteResult)
    (h : pasteLogoOnPng env img p frac pad pr pm = .ok r) :
    r = pasteResultOf env img p frac pad pr pm := by
  unfold pasteLogoOnPng at h
  split at h
  · exact absurd h (by simp)
  · split at h
    · exact absurd h (by simp)
    · exact (Except.ok.inj h).symm

theorem pasteLogoOnPng_ok_width (env : Env) (img : PilImage) (p : List Char)
    (frac : PyFloat) (pad : Bool) (pr pm : Nat) (r : PasteResult)
    (h : pasteLogoOnPng env img p frac pad pr pm = .ok r) :
    (loadedLogo env p).width ≠ 0 := by
  unfold pasteLogoOnPng at h
  split at h
  · exact absurd h (by simp)
  · split at h
    · exact absurd h (by simp)
    · rename_i hw
      exact hw

theorem PyFloat.floorD_eq_trunc (a : PyFloat) (h : 0 ≤ a.num) :
    a.floorD = a.trunc := by
  obtain ⟨n, hn⟩ := Int.eq_ofNat_of_zero_le h
  unfold PyFloat.floorD PyFloat.trunc
  rw [hn, ← Int.ofNat_fdiv, ← Int.ofNat_tdiv]

theorem pasteResultOf_resizeW (env : Env) (img : PilImage) (p : List Char)
    (frac : PyFloat) (pad : Bool) (pr pm : Nat) :
    (pasteResultOf env img p frac pad pr pm).resizeW =
      (max 1 ((PyFloat.ofNat img.width |>.mul frac).trunc)).toNat := rfl

theorem pasteResultOf_resizeH (env : Env) (img : PilImage) (p : List Char)
    (frac : PyFloat) (pad : Bool) (pr pm : Nat) :
    (pasteResultOf env img p frac pad pr pm).resizeH =
      (max 1 ((PyFloat.ofNat (loadedLogo env p).height |>.mul
        (PyFloat.div (PyFloat.ofInt (max 1 ((PyFloat.ofNat img.width |>.mul frac).trunc)))
          (PyFloat.ofNat (loadedLogo env p).width))).trunc)).toNat := rfl

theorem pasteResultOf_pasteX (env : Env) (img : PilImage) (p : List Char)
    (frac : PyFloat) (pad : Bool) (pr pm : Nat) :
    (pasteResultOf env img p frac pad pr pm).pasteX =
      Int.fdiv ((img.width : Int) - ((pasteResultOf env img p frac pad pr pm).finalW : Int)) 2 := by
  cases pad <;> rfl

theorem pasteResultOf_pasteY (env : Env) (img : PilImage) (p : List Char)
    (frac : PyFloat) (pad : Bool) (pr pm : Nat) :
    (pasteResultOf env img p frac pad pr pm).pasteY =
      Int.fdiv ((img.height : Int) - ((pasteResultOf env img p frac pad pr pm).finalH : Int)) 2 := by
  cases pad <;> rfl

theorem pasteResultOf_finalW (env : Env) (img : PilImage) (p : List Char)
    (frac : PyFloat) (pad : Bool) (pr pm : Nat) :
    (pasteResultOf env img p frac pad pr pm).finalW =
      (if pad then (pasteResultOf env img p frac pad pr pm).resizeW + pm * 2
       else (pasteResultOf env img p frac pad pr pm).resizeW) := by
  cases pad <;> rfl

theorem pasteResultOf_finalH (env : Env) (img : PilImage) (p : List Char)
    (frac : PyFloat) (pad : Bool) (pr pm : Nat) :
    (pasteResultOf env img p frac pad pr pm).finalH =
      (if pad then (pasteResultOf env img p frac pad pr pm).resizeH + pm * 2
       else (pasteResultOf env img p frac pad pr pm).resizeH) := by
  cases pad <;> rfl

/-- The logo path used by the concrete raster fixtures. -/
def lpng : List Char := ("logo.png").data

/-! ## Claim C1 -/

/-- C1, counterexample: for a QR raster of width `W = 1` (≥ 1) and
`logo_frac = 1/2 ∈ (0,1]`, the raster path resizes the logo to width 1,
whereas the claim's `floor(W * logo_frac)` is 0 — the code clamps the width
with `max(1, ·)`, which the claim's width clause omits. -/
theorem c1_counterexample :
    (pasteLogoOnPng envQr qrImg1 lpng ⟨1, 2⟩ false 18 10).map PasteResult.resizeW
      = .ok 1 ∧
    ((PyFloat.ofNat qrImg1.width).mul ⟨1, 2⟩).floorD = 0 := by decide

/-- C1 (amended): in the raster path, for `logo_frac ≥ 0`, the resized logo's
width is `max(1, floor(W * logo_frac))` — the claimed `floor(W * logo_frac)`
clamped to a 1px minimum exactly like the height — and its height is the
aspect-ratio-preserving `floor(original_height * (target_width /
original_width))` with the same 1px minimum. -/
theorem c1_amended (env : Env) (img : PilImage) (p : List Char)
    (frac : PyFloat) (pad : Bool) (pr pm : Nat) (r : PasteResult)
    (hfrac : 0 ≤ frac.num)
    (h : pasteLogoOnPng env img p frac pad pr pm = .ok r) :
    ((r.resizeW : Int) = max 1 (((PyFloat.ofNat img.width).mul frac).floorD)) ∧
    ((r.resizeH : Int) = max 1 (((PyFloat.ofNat (loadedLogo env p).height).mul
      (PyFloat.div (PyFloat.ofInt (r.resizeW : Int))
        (PyFloat.ofNat (loadedLogo env p).width))).floorD)) := by
  have hr := pasteLogoOnPng_ok env img p frac pad pr pm r h
  subst hr
  have hX : 0 ≤ ((PyFloat.ofNat img.width).mul frac).num := by
    simp only [PyFloat.mul, PyFloat.ofNat]
    exact mul_nonneg (Int.ofNat_nonneg img.width) hfrac
  set X := ((PyFloat.ofNat img.width).mul frac).trunc with hXdef
  have hmax : (0 : Int) ≤ max 1 X := le_trans (by norm_num) (le_max_left 1 X)
  have hcastW : (((pasteResultOf env img p frac pad pr pm).resizeW : Nat) : Int)
      = max 1 X := by
    rw [pasteResultOf_resizeW]
    exact Int.toNat_of_nonneg hmax
  constructor
  · rw [hcastW, PyFloat.floorD_eq_trunc _ hX]
  · rw [pasteResultOf_resizeH, hcastW]
    have hY : 0 ≤ ((PyFloat.ofNat (loadedLogo env p).height).mul
        (PyFloat.div (PyFloat.ofInt (max 1 X))
          (PyFloat.ofNat (loadedLogo env p).width))).num := by
      simp only [PyFloat.mul, PyFloat.div, PyFloat.ofInt, PyFloat.ofNat]
      rw [if_pos (Int.ofNat_nonneg _)]
      have h1 : (0 : Int) ≤ (max 1 X) * ((1 : Nat) : Int) := by simp
      exact mul_nonneg (Int.ofNat_nonneg _) h1
    rw [PyFloat.floorD_eq_trunc _ hY]
    exact Int.toNat_of_nonneg (le_trans (by norm_num) (le_max_left _ _))

/-- Witness for `c1_amended` at a concrete input (the defaults: 2×2 QR,
`logo_frac = 0.22`, padding on). -/
theorem c1_witness :
    (0 ≤ (⟨11, 50⟩ : PyFloat).num) ∧
    ((((pasteResultOf envQr qrImg2 lpng ⟨11, 50⟩ true 18 10).resizeW : Int) =
        max 1 (((PyFloat.ofNat qrImg2.width).mul ⟨11, 50⟩).floorD)) ∧
     (((pasteResultOf envQr qrImg2 lpng ⟨11, 50⟩ true 18 10).resizeH : Int) =
        max 1 (((PyFloat.ofNat (loadedLogo envQr lpng).height).mul
          (PyFloat.div
            (PyFloat.ofInt ((pasteResultOf envQr qrImg2 lpng ⟨11, 50⟩ true 18 10).resizeW : Int))
            (PyFloat.ofNat (loadedLogo envQr lpng).width))).floorD))) :=
  ⟨by decide,
    c1_amended envQr qrImg2 lpng ⟨11, 50⟩ true 18 10
      (pasteResultOf envQr qrImg2 lpng ⟨11, 50⟩ true 18 10) (by decide) (by decide)⟩

/-! ## Claim C2 -/

/-- C2 (confirmed): in the raster path, the top-left paste coordinate is
exactly `((W - w)//2, (H - h)//2)` (Python floor division) where `(W, H)` are
the full rendered QR dimensions and `(w, h)` the final — possibly padded —
logo dimensions (padding adds `pad_margin_px * 2` per axis); the composite
keeps the QR's full dimensions. -/
theorem c2_centered_paste (env : Env) (img : PilImage) (p : List Char)
    (frac : PyFloat) (pad : Bool) (pr pm : Nat) (r : PasteResult)
    (h : pasteLogoOnPng env img p frac pad pr pm = .ok r) :
    r.pasteX = Int.fdiv ((img.width : Int) - (r.finalW : Int)) 2 ∧
    r.pasteY = Int.fdiv ((img.height : Int) - (r.finalH : Int)) 2 ∧
    r.finalW = (if pad then r.resizeW + pm * 2 else r.resizeW) ∧
    r.finalH = (if pad then r.resizeH + pm * 2 else r.resizeH) ∧
    r.composite.width = img.width ∧ r.composite.height = img.height := by
  have hr := pasteLogoOnPng_ok env img p frac pad pr pm r h
  subst hr
  exact ⟨pasteResultOf_pasteX env img p frac pad pr pm,
    pasteResultOf_pasteY env img p frac pad pr pm,
    pasteResultOf_finalW env img p frac pad pr pm,
    pasteResultOf_finalH env img p frac pad pr pm, rfl, rfl⟩

/-- Witness for `c2_centered_paste` at a concrete input. -/
theorem c2_witness :
    (pasteResultOf envQr qrImg2 lpng ⟨11, 50⟩ true 18 10).pasteX =
      Int.fdiv ((qrImg2.width : Int) -
        ((pasteResultOf envQr qrImg2 lpng ⟨11, 50⟩ true 18 10).finalW : Int)) 2 ∧
    (pasteResultOf envQr qrImg2 lpng ⟨11, 50⟩ true 18 10).pasteY =
      Int.fdiv ((qrImg2.height : Int) -
        ((pasteResultOf envQr qrImg2 lpng ⟨11, 50⟩ true 18 10).finalH : Int)) 2 ∧
    (pasteResultOf envQr qrImg2 lpng ⟨11, 50⟩ true 18 10).finalW =
      (if true then (pasteResultOf envQr qrImg2 lpng ⟨11, 50⟩ true 18 10).resizeW + 10 * 2
       else (pasteResultOf envQr qrImg2 lpng ⟨11, 50⟩ true 18 10).resizeW) ∧
    (pasteResultOf envQr qrImg2 lpng ⟨11, 50⟩ true 18 10).finalH =
      (if true then (pasteResultOf envQr qrImg2 lpng ⟨11, 50⟩ true 18 10).resizeH + 10 * 2
       else (pasteResultOf envQr qrImg2 lpng ⟨11, 50⟩ true 18 10).resizeH) ∧
    (pasteResultOf envQr qrImg2 lpng ⟨11, 50⟩ true 18 10).composite.width = qrImg2.width ∧
    (pasteResultOf envQr qrImg2 lpng ⟨11, 50⟩ true 18 10).composite.height = qrImg2.height :=
  c2_centered_paste envQr qrImg2 lpng ⟨11, 50⟩ true 18 10
    (pasteResultOf envQr qrImg2 lpng ⟨11, 50⟩ true 18 10) (by decide)

/-! ## Claim C9 -/

/-- C9, counterexample: PIL's `paste` operates *in place* on the QR image
passed in (line 75 mutates `img` and line 76 returns that same object), so
after a call that paints one opaque black pixel onto a 2×2 white QR, the
caller's image object no longer equals its original value. -/
theorem c9_counterexample :
    (pasteLogoOnPng envQr qrImg2 lpng ⟨1, 2⟩ false 18 10).map PasteResult.imgFinal
      = .ok ⟨2, 2, [[blackPx, whitePx], [whitePx, whitePx]]⟩ ∧
    (⟨2, 2, [[blackPx, whitePx], [whitePx, whitePx]]⟩ : PilImage) ≠ qrImg2 := by
  decide

/-- C9 (amended): the loaded logo is not mutated (`resize` returns a copy),
but the QR raster *is* composited in place: the returned composite is the
final state of the caller's image object; it keeps the input's dimensions. -/
theorem c9_amended (env : Env) (img : PilImage) (p : List Char)
    (frac : PyFloat) (pad : Bool) (pr pm : Nat) (r : PasteResult)
    (h : pasteLogoOnPng env img p frac pad pr pm = .ok r) :
    r.imgFinal = r.composite ∧
    r.composite.width = img.width ∧ r.composite.height = img.height := by
  have hr := pasteLogoOnPng_ok env img p frac pad pr pm r h
  subst hr
  exact ⟨rfl, rfl, rfl⟩

/-- Witness for `c9_amended` at a concrete input. -/
theorem c9_witness :
    (pasteResultOf envQr qrImg2 lpng ⟨1, 2⟩ false 18 10).imgFinal =
      (pasteResultOf envQr qrImg2 lpng ⟨1, 2⟩ false 18 10).composite ∧
    (pasteResultOf envQr qrImg2 lpng ⟨1, 2⟩ false 18 10).composite.width = qrImg2.width ∧
    (pasteResultOf envQr qrImg2 lpng ⟨1, 2⟩ false 18 10).composite.height = qrImg2.height :=
  c9_amended envQr qrImg2 lpng ⟨1, 2⟩ false 18 10
    (pasteResultOf envQr qrImg2 lpng ⟨1, 2⟩ false 18 10) (by decide)

/-! ## Helper lemmas: the orchestrator -/

/-- `generate_qr` propagates any exception of `_make_qr` before touching the
filesystem: no write happens. -/
theorem generateQr_of_makeQr_error (env : Env) (out ecc : List Char)
    (lp : Option (List Char)) (frac : PyFloat) (pl : Bool) (pr pm : Nat)
    (e : PyErr) (h : makeQr ecc = .error e) :
    generateQr env out ecc lp frac pl pr pm = ([], .error e) := by
  simp only [generateQr, h]

/-! ## Claim C10 -/

/-- C10 (confirmed): for an `out_path` with no directory component
(`os.path.dirname` empty), `generate_qr` raises the `FileNotFoundError` of
`os.makedirs('')` — after QR construction but before any rendering output is
written (the write list is empty) — whatever the extension, for any valid
payload and ECC. -/
theorem c10_empty_dirname_error (env : Env) (out ecc : List Char)
    (lp : Option (List Char)) (frac : PyFloat) (pl : Bool) (pr pm : Nat)
    (h1 : makeQr ecc = .ok ()) (h2 : dirname out = []) :
    generateQr env out ecc lp frac pl pr pm =
      ([], .error (.fileNotFoundError fnfMsg)) := by
  simp only [generateQr, h1, makedirs, h2, if_pos]

/-- Witness for `c10_empty_dirname_error`: `out_path = "qr.png"` with valid
payload, ECC and extension. -/
theorem c10_witness :
    generateQr envQr (("qr.png").data) (("h").data) none ⟨11, 50⟩ true 18 10 =
      ([], .error (.fileNotFoundError fnfMsg)) :=
  c10_empty_dirname_error envQr (("qr.png").data) (("h").data) none ⟨11, 50⟩
    true 18 10 (by decide) (by decide)

/-! ## Claim C4 -/

/-- C4, counterexample: for `out_path = "qr.txt"` (extension neither `.png`
nor `.svg`) with valid payload and ECC, `generate_qr` fails with the
directory-creation `FileNotFoundError` — `os.makedirs(os.path.dirname(...))`
runs *before* the extension check — not with the "unsupported format"
`ValueError` the claim requires. -/
theorem c4_counterexample :
    generateQr envQr (("qr.txt").data) (("h").data) none ⟨11, 50⟩ true 18 10 =
      ([], .error (.fileNotFoundError fnfMsg)) ∧
    PyErr.fileNotFoundError fnfMsg ≠ PyErr.valueError extErrMsg := by decide

/-- C4 (amended): for every output path *with a nonempty directory component*
whose lower-cased extension is neither `.png` nor `.svg`, `generate_qr`
raises the "unsupported format" `ValueError` with no output file written
(rendering never runs; the directory, however, has already been created); a
path with an empty directory component is instead rejected by the
directory-creation error. -/
theorem c4_unsupported_ext_amended (env : Env) (out ecc : List Char)
    (lp : Option (List Char)) (frac : PyFloat) (pl : Bool) (pr pm : Nat)
    (h1 : makeQr ecc = .ok ()) (h2 : dirname out ≠ [])
    (h3 : pyEndsWith pngExtOut (pyLower out) = false)
    (h4 : pyEndsWith svgExtOut (pyLower out) = false) :
    generateQr env out ecc lp frac pl pr pm = ([], .error (.valueError extErrMsg)) := by
  simp only [generateQr, h1, makedirs, if_neg h2, h3, h4]
  simp

/-- Witness for `c4_unsupported_ext_amended`: `out_path = "out/qr.txt"`. -/
theorem c4_witness :
    generateQr envQr (("out/qr.txt").data) (("h").data) none ⟨11, 50⟩ true 18 10 =
      ([], .error (.valueError extErrMsg)) :=
  c4_unsupported_ext_amended envQr (("out/qr.txt").data) (("h").data) none
    ⟨11, 50⟩ true 18 10 (by decide) (by decide) (by decide) (by decide)

/-! ## Claim C3 -/

/-- C3, counterexample: a raster-output request with a vector logo and no
rasterizer whose `out_path` is a bare filename (`"qr.png"`, empty directory
component) fails at line 139's `os.makedirs('')` with `FileNotFoundError` —
before `_paste_logo_on_png` ever runs — so the reported error does *not*
name the unmet dependency, refuting the claim on such requests. -/
theorem c3_counterexample :
    generateQr envNoCairo (("qr.png").data) (("h").data)
        (some (("logo.svg").data)) ⟨11, 50⟩ true 18 10 =
      ([], .error (.fileNotFoundError fnfMsg)) ∧
    pyInStr (("CairoSVG").data) fnfMsg = false ∧
    PyErr.fileNotFoundError fnfMsg ≠ PyErr.runtimeError cairoMsg := by decide

/-- C3 (amended): for every generation request with raster (`.png`) output,
a vector (`.svg`) logo, no vector rasterizer available, *and an output path
with a nonempty directory component* (so that the directory-creation step
preceding the format dispatch succeeds), the system fails fast inside the
compositing step with the `RuntimeError` naming CairoSVG (the unmet
dependency), and no output file is written; a bare-filename request instead
fails earlier with the directory-creation error. -/
theorem c3_svg_logo_needs_rasterizer (env : Env) (out ecc p : List Char)
    (frac : PyFloat) (pl : Bool) (pr pm : Nat)
    (h1 : makeQr ecc = .ok ()) (h2 : dirname out ≠ [])
    (h3 : pyEndsWith pngExtOut (pyLower out) = true)
    (h4 : splitextExt (pyLower p) = svgExt) (h5 : env.hasCairosvg = false) :
    generateQr env out ecc (some p) frac pl pr pm =
      ([], .error (.runtimeError cairoMsg)) ∧
    pyInStr (("CairoSVG").data) cairoMsg = true := by
  refine ⟨?_, by decide⟩
  simp only [generateQr, h1, makedirs, if_neg h2, h3]
  simp only [pasteLogoOnPng, h4, h5, if_pos]
  simp

/-- Witness for `c3_svg_logo_needs_rasterizer`: concrete request
`out_path = "out/qr.png"`, logo `"logo.svg"`, CairoSVG absent. -/
theorem c3_witness :
    generateQr envNoCairo (("out/qr.png").data) (("h").data)
        (some (("logo.svg").data)) ⟨11, 50⟩ true 18 10 =
      ([], .error (.runtimeError cairoMsg)) ∧
    pyInStr (("CairoSVG").data) cairoMsg = true :=
  c3_svg_logo_needs_rasterizer envNoCairo (("out/qr.png").data) (("h").data)
    (("logo.svg").data) ⟨11, 50⟩ true 18 10 (by decide) (by decide) (by decide)
    (by decide) (by decide)

/-! ## Claim C5 -/

/-- C5, counterexample: `"H"` is in the claim's set `{L, M, Q, H}` and the
encoder itself accepts it (case-insensitively), but `generate_qr` rejects it:
`"H" not in "lmqh"` is true for Python's *substring* test, so `_make_qr`
raises its `ValueError` — refuting "every string in that set is accepted". -/
theorem c5_counterexample :
    generateQr envQr (("out/qr.png").data) (("H").data) none ⟨11, 50⟩ true 18 10 =
      ([], .error (.valueError eccErrMsg)) ∧
    segnoAccepts (("H").data) = true := by decide

/-- C5 (amended): the wrapper's check accepts exactly the contiguous
substrings of `"lmqh"`; lowercase `l`, `m`, `q`, `h` are accepted, uppercase
`L`, `M`, `Q`, `H` are rejected immediately with the invalid-parameter
`ValueError`, and multi-character substrings such as `"lm"` (and `""`) slip
past the wrapper but are rejected by the encoder's own validation; every
`_make_qr` rejection leaves `generate_qr` with no output written. -/
theorem c5_ecc_validation_amended (env : Env) (out ecc : List Char)
    (lp : Option (List Char)) (frac : PyFloat) (pl : Bool) (pr pm : Nat) :
    ((ecc = ("l").data ∨ ecc = ("m").data ∨ ecc = ("q").data ∨ ecc = ("h").data) →
      makeQr ecc = .ok ()) ∧
    ((ecc = ("L").data ∨ ecc = ("M").data ∨ ecc = ("Q").data ∨ ecc = ("H").data) →
      generateQr env out ecc lp frac pl pr pm = ([], .error (.valueError eccErrMsg))) ∧
    (makeQr ecc = .ok () ↔
      (pyInStr ecc (("lmqh").data) = true ∧ segnoAccepts ecc = true)) ∧
    (∀ e : PyErr, makeQr ecc = .error e →
      generateQr env out ecc lp frac pl pr pm = ([], .error e)) := by
  refine ⟨?_, ?_, ?_, ?_⟩
  · rintro (rfl | rfl | rfl | rfl) <;> decide
  · rintro (rfl | rfl | rfl | rfl) <;>
      exact generateQr_of_makeQr_error _ _ _ _ _ _ _ _ _ (by decide)
  · constructor
    · intro hok
      unfold makeQr at hok
      by_cases hin : pyInStr ecc (("lmqh").data) = false
      · rw [if_pos hin] at hok
        exact absurd hok (by simp)
      · rw [if_neg hin] at hok
        refine ⟨by simpa using hin, ?_⟩
        by_cases hseg : segnoAccepts ecc = true
        · exact hseg
        · rw [if_neg hseg] at hok
          exact absurd hok (by simp)
    · rintro ⟨hin, hseg⟩
      unfold makeQr
      simp [hin, hseg]
  · intro e he
    exact generateQr_of_makeQr_error _ _ _ _ _ _ _ _ _ he

/-- Witness for `c5_ecc_validation_amended`: the error-propagation conjunct
discharged at `ecc = "lm"` (passes the substring check, rejected by the
encoder, no output written). -/
theorem c5_witness :
    generateQr envQr (("out/qr.png").data) (("lm").data) none ⟨11, 50⟩ true 18 10 =
      ([], .error (.valueError segnoErrMsg)) :=
  (c5_ecc_validation_amended envQr (("out/qr.png").data) (("lm").data) none
    ⟨11, 50⟩ true 18 10).2.2.2 (.valueError segnoErrMsg) (by decide)

/-! ## Claim C6 -/

/-- C6, counterexample: with no logo and `.png` output, the written file is
*not* byte-identical to the encoder's direct render: `generate_qr` decodes
the render, converts it to RGBA and re-saves it through the imaging library,
which emits a colour-type-6 PNG, while the encoder's own render here is a
colour-type-0 (1-bit greyscale) PNG — different headers, different bytes. -/
theorem c6_counterexample :
    generateQr envQr (("out/qr.png").data) (("h").data) none ⟨11, 50⟩ true 18 10 ≠
      ([((("out/qr.png").data), .pngFile envQr.qrPng)], .ok (("out/qr.png").data)) ∧
    generateQr envQr (("out/qr.png").data) (("h").data) none ⟨11, 50⟩ true 18 10 =
      ([((("out/qr.png").data), .pngFile ⟨6, 8, 2, 2, qrImg2.rows⟩)],
        .ok (("out/qr.png").data)) := by decide

/-- C6 (amended): with no logo, the `.svg` branch writes the encoder's SVG
text byte-identically, but the `.png` branch writes the imaging library's
re-encode (decode, convert to RGBA, save) of the encoder's render — the
pixel grid is preserved but the bytes differ from the direct render whenever
the encoder's PNG is not itself a colour-type-6 file. -/
theorem c6_no_logo_passthrough_amended (env : Env) (out ecc : List Char)
    (frac : PyFloat) (pl : Bool) (pr pm : Nat)
    (h1 : makeQr ecc = .ok ()) (h2 : dirname out ≠ []) :
    (pyEndsWith pngExtOut (pyLower out) = true →
      generateQr env out ecc none frac pl pr pm =
        ([(out, .pngFile (pilSavePng (convertRGBA (pilOpenPng env.qrPng))))], .ok out) ∧
      (env.qrPng.colorType ≠ 6 →
        FileData.pngFile (pilSavePng (convertRGBA (pilOpenPng env.qrPng))) ≠
          .pngFile env.qrPng)) ∧
    (pyEndsWith pngExtOut (pyLower out) = false →
      pyEndsWith svgExtOut (pyLower out) = true →
      generateQr env out ecc none frac pl pr pm =
        ([(out, .textFile env.qrSvg)], .ok out)) := by
  constructor
  · intro h3
    constructor
    · simp only [generateQr, h1, makedirs, if_neg h2, h3]
      simp
    · intro hct hcontra
      apply hct
      have hpng : pilSavePng (convertRGBA (pilOpenPng env.qrPng)) = env.qrPng :=
        FileData.pngFile.inj hcontra
      have : (pilSavePng (convertRGBA (pilOpenPng env.qrPng))).colorType =
          env.qrPng.colorType := by rw [hpng]
      simpa [pilSavePng] using this.symm
  · intro h3 h4
    simp only [generateQr, h1, makedirs, if_neg h2, h3, h4]
    simp

/-- Witness for `c6_no_logo_passthrough_amended`: the SVG branch at
`out_path = "out/qr.svg"` (byte-identical pass-through). -/
theorem c6_witness :
    generateQr envQr (("out/qr.svg").data) (("h").data) none ⟨11, 50⟩ true 18 10 =
      ([((("out/qr.svg").data), .textFile envQr.qrSvg)], .ok (("out/qr.svg").data)) :=
  (c6_no_logo_passthrough_amended envQr (("out/qr.svg").data) (("h").data)
    ⟨11, 50⟩ true 18 10 (by decide) (by decide)).2 (by decide) (by decide)

/-! ## Claim C7 -/

/-- An SVG text with *two* `</svg>` occurrences (a nested inner `svg`
element). -/
def svgDup : List Char := ("<svg><svg></svg></svg>").data

/-- C7, counterexample: `str.replace` replaces *every* occurrence, so on a QR
SVG text containing a nested `</svg>` before the closing root tag the
embedding inserts *two* `<image>` elements — the first of them before the
inner closing tag, altering prior markup — refuting "exactly one new
`<image>` element inserted immediately before the closing root tag". -/
theorem c7_counterexample :
    countSub (("<image").data)
      ((embedLogoInSvg envQr svgDup lpng ⟨1, 5⟩).toOption.getD []) = 2 ∧
    (embedLogoInSvg envQr svgDup lpng ⟨1, 5⟩).toOption ≠ none := by decide

/-- C7 (amended): for every QR SVG text containing exactly *one* occurrence
of the closing tag `</svg>`, a successful embedding returns the input text
with a single `<image ...>` element (one `<`, starting `<image x=`) inserted
immediately before that closing tag: the prefix before the tag and the
suffix after it are unchanged, in order. -/
theorem c7_single_insertion_amended (env : Env) (svg p : List Char)
    (frac : PyFloat) (out : List Char)
    (hcount : countSub svgCloseTag svg = 1)
    (h : embedLogoInSvg env svg p frac = .ok out) :
    ∃ pre suf inj, svg = pre ++ svgCloseTag ++ suf ∧
      countSub svgCloseTag pre = 0 ∧ countSub svgCloseTag suf = 0 ∧
      out = pre ++ inj ++ svgCloseTag ++ suf ∧
      (("<image x=").data).isPrefixOf inj = true ∧ inj.count ('<') = 1 := by
  obtain ⟨inj, hout, hpre, hcnt⟩ := embedLogoInSvg_ok_shape env svg p frac out h
  obtain ⟨pre, suf, hsplit, hp0, hs0, hrepl⟩ :=
    replaceAll_single svgCloseTag (inj ++ svgCloseTag) svg (by decide) hcount
  refine ⟨pre, suf, inj, hsplit, hp0, hs0, ?_, hpre, hcnt⟩
  rw [hout, hrepl]
  simp [List.append_assoc]

/-- Witness for `c7_single_insertion_amended`: the fallback branch on
`"<svg></svg>"` with a PNG logo. -/
theorem c7_witness :
    countSub svgCloseTag (("<svg></svg>").data) = 1 ∧
    (∃ pre suf inj, (("<svg></svg>").data) = pre ++ svgCloseTag ++ suf ∧
      countSub svgCloseTag pre = 0 ∧ countSub svgCloseTag suf = 0 ∧
      (("<svg><image x=\"50%\" y=\"50%\" width=\"22%\" height=\"22%\" href=\"data:image/png;base64,AQID\" transform=\"translate(-11.0%, -11.0%)\" /></svg>").data) =
        pre ++ inj ++ svgCloseTag ++ suf ∧
      (("<image x=").data).isPrefixOf inj = true ∧ inj.count ('<') = 1) :=
  ⟨by decide,
    c7_single_insertion_amended envQr (("<svg></svg>").data) lpng ⟨11, 50⟩
      (("<svg><image x=\"50%\" y=\"50%\" width=\"22%\" height=\"22%\" href=\"data:image/png;base64,AQID\" transform=\"translate(-11.0%, -11.0%)\" /></svg>").data)
      (by decide) (by decide)⟩

/-! ## Claim C8 -/

/-- C8, counterexample: in the parsed-viewBox scenario (`viewBox="0 0 100
100"`, `logo_frac = 0.2`), the injected element's attributes are Python float
renderings — the output contains `width="20.0"` and does *not* contain the
claimed `width="20"` (with its closing quote). -/
theorem c8_counterexample :
    pyInStr (("width=\"20\"").data)
      ((embedLogoInSvg envVb envVb.qrSvg lpng ⟨1, 5⟩).toOption.getD []) = false ∧
    pyInStr (("width=\"20.0\"").data)
      ((embedLogoInSvg envVb envVb.qrSvg lpng ⟨1, 5⟩).toOption.getD []) = true := by
  decide

/-- C8 (amended): for SVG output with a PNG logo, `logo_frac = 0.2`, and a QR
SVG carrying parseable `width`, `height` and `viewBox="0 0 100 100"`, the
element injected before the closing tag is exactly
`<image x="40.0" y="40.0" width="20.0" height="20.0" ... />` — numerically
`viewbox_size * logo_frac = 20` and top-left `40` (the viewbox centre minus
half the logo box), rendered with Python's float formatting. -/
theorem c8_viewbox_geometry_amended :
    generateQr envVb (("out/qr.svg").data) (("h").data) (some lpng) ⟨1, 5⟩ true 18 10 =
      ([((("out/qr.svg").data), .textFile
        (("<svg width=\"100\" height=\"100\" viewBox=\"0 0 100 100\"><path d=\"M1 1h8z\"/><image x=\"40.0\" y=\"40.0\" width=\"20.0\" height=\"20.0\" href=\"data:image/png;base64,AQID\" /></svg>").data))],
        .ok (("out/qr.svg").data)) := by decide

/-! ## Model validation: `PyFloat` against the rationals

The embedding's fraction arithmetic agrees with exact rational arithmetic,
and `floorD` is the mathematical floor of the denoted value. -/

theorem PyFloat.val_mul (a b : PyFloat) : (a.mul b).val = a.val * b.val := by
  unfold PyFloat.val PyFloat.mul
  push_cast
  rw [div_mul_div_comm]

theorem PyFloat.val_add (a b : PyFloat) (ha : a.den ≠ 0) (hb : b.den ≠ 0) :
    (a.add b).val = a.val + b.val := by
  unfold PyFloat.val PyFloat.add
  have ha' : ((a.den : ℚ)) ≠ 0 := Nat.cast_ne_zero.mpr ha
  have hb' : ((b.den : ℚ)) ≠ 0 := Nat.cast_ne_zero.mpr hb
  field_simp

theorem PyFloat.val_sub (a b : PyFloat) (ha : a.den ≠ 0) (hb : b.den ≠ 0) :
    (a.sub b).val = a.val - b.val := by
  unfold PyFloat.val PyFloat.sub
  have ha' : ((a.den : ℚ)) ≠ 0 := Nat.cast_ne_zero.mpr ha
  have hb' : ((b.den : ℚ)) ≠ 0 := Nat.cast_ne_zero.mpr hb
  field_simp
  ring

theorem PyFloat.val_div (a b : PyFloat) (ha : a.den ≠ 0) (hbn : b.num ≠ 0)
    (hbd : b.den ≠ 0) : (a.div b).val = a.val / b.val := by
  unfold PyFloat.val PyFloat.div
  have ha' : ((a.den : ℚ)) ≠ 0 := Nat.cast_ne_zero.mpr ha
  have hbd' : ((b.den : ℚ)) ≠ 0 := Nat.cast_ne_zero.mpr hbd
  have hbn' : ((b.num : ℚ)) ≠ 0 := Int.cast_ne_zero.mpr hbn
  rcases le_or_lt 0 b.num with hs | hs
  · rw [if_pos hs]
    have habs : |b.num| = b.num := abs_of_nonneg hs
    push_cast
    rw [Int.cast_natAbs, habs]
    field_simp
  · rw [if_neg (not_le.mpr hs)]
    have habs : |b.num| = -b.num := abs_of_neg hs
    push_cast
    rw [Int.cast_natAbs, habs]
    field_simp

theorem PyFloat.floorD_eq_floor (a : PyFloat) : a.floorD = ⌊a.val⌋ := by
  unfold PyFloat.floorD PyFloat.val
  rw [Rat.floor_intCast_div_natCast]
  exact Int.fdiv_eq_ediv _ (Int.ofNat_nonneg _)
